import Mathlib

/-!
Shallow embedding of the CCLib host-side driver (`Python/cclib/ccdebugger.py`)
for the CC2540/CC2541 proxy protocol, and proofs about the transport framing,
burst writes, DMA descriptor packing, flash address encoding and the flash
programmer's chunking loop.
-/

namespace CCLib

/-- One payload byte as sent on the wire for a Python integer `b`:
`chr(b & 0xFF)` (line 256).  Python's `&` on arbitrary-precision signed
integers yields the arithmetic residue mod 256, i.e. `Int.emod b 256`. -/
def pyByte (b : Int) : Nat := (b % 256).toNat

/-- Python list slice `data[a:b]` for nonnegative bounds: the elements with
indices `a ≤ i < b`, clipped to the list. -/
def pySlice (data : List Int) (a b : Nat) : List Int := (data.take b).drop a

/-- Outcome of the acknowledgment handling of `sendFrame`. -/
inductive FrameResult where
  | ok : FrameResult
  | err : Nat → FrameResult
deriving DecidableEq

/-- `sendFrame` response handling (lines 104-107): read the ack byte; if it is
`ANS_OK` (0x01) succeed, otherwise read one further byte and fail carrying that
byte as the proxy error code.  The argument is the stream of response bytes;
the result pairs the outcome with the number of response bytes consumed.
`none` models a read timeout (stream exhausted). -/
def sendFrameAck : List Nat → Option (FrameResult × Nat)
  | [] => none
  | s :: rest =>
    if s = 1 then some (.ok, 1)
    else
      match rest with
      | [] => none
      | c :: _ => some (.err c, 2)

/-- `brustWrite` (lines 235-257): the bytes put on the wire.  `none` when the
local length check `length > 2048` fails (nothing is sent and the function
returns `False`); otherwise the 4-byte command frame
`[CMD_BRUSTWR, len_hi, len_lo, 0]` followed by the payload, each element sent
as `chr(b & 0xFF)`. -/
def brustWrite (data : List Int) : Option (List Nat) :=
  if data.length > 2048 then none
  else
    some ([0x0A, (data.length >>> 8) &&& 0xFF, data.length &&& 0xFF, 0] ++ data.map pyByte)

/-- `writeXDATA` (lines 294-309) as the association of target XDATA addresses
to the bytes stored there: DPTR starts at `offset` and is incremented after
every `MOVX @DPTR,A`, so byte `i` lands at address `offset + i`. -/
def writeXDATAPairs (offset : Nat) (bytes : List Nat) : List (Nat × Nat) :=
  ((List.range bytes.length).zip bytes).map fun ib => (offset + ib.1, ib.2)

/-- One lowercase hexadecimal digit (value `n < 16`). -/
def hexDigit (n : Nat) : Char :=
  if n < 10 then Char.ofNat (0x30 + n) else Char.ofNat (0x61 + (n - 10))

/-- Python `"%02x" % b` for a byte `b < 256`: two lowercase hex digits. -/
def hexByte (b : Nat) : String :=
  String.mk [hexDigit (b / 16 % 16), hexDigit (b % 16)]

/-- `getSerial` (lines 358-372) applied to the 6 bytes read from XDATA 0x780E:
`for i in range(5,0,-1): serial += "%02x" % bytes[i]`.  Python's
`range(5,0,-1)` enumerates `5,4,3,2,1` (the stop value 0 is excluded). -/
def getSerial (bytes : List Nat) : String :=
  [5, 4, 3, 2, 1].foldl (fun serial i => serial ++ hexByte (bytes.getD i 0)) ""

/-- `selectXDATABank` (lines 339-345): the value written back to SFR 0xC7
given the value `a` read from it: `(a & 0xF8) | (bank & 0x07)`. -/
def selectXDATABankValue (bank a : Nat) : Nat := (a &&& 0xF8) ||| (bank &&& 0x07)

/-- `armDMAChannel` (lines 513-527): the value written back to DMAARM
(SFR 0xD6) given the value `a` read from it: `a |= pow(2, index)`. -/
def armDMAChannelValue (index a : Nat) : Nat := a ||| 2 ^ index

/-- `clearDMAIRQ` (lines 558-571): the value written back to DMAIRQ (SFR 0xD1)
given the value `a` read from it: `a &= ~flag` with `flag = pow(2, index)`,
over Python's signed arbitrary-precision integers. -/
def clearDMAIRQValue (index a : Nat) : Int :=
  Int.land (a : Int) (Int.lnot ((2 ^ index : Nat) : Int))

/-- `configDMAChannel` (lines 452-487): the 8 DMA descriptor bytes, packed
exactly as in the source (`nword`, `nirq`, `nm8` are the numeric flags the
source derives from `word`, `interrupt`, `m8`). -/
def configDMAChannelConfig (srcAddr dstAddr trigger vlen tlen : Nat) (word : Bool)
    (transferMode srcInc dstInc : Nat) (interrupt m8 : Bool) (priority : Nat) : List Nat :=
  let nword : Nat := if word then 1 else 0
  let nirq : Nat := if interrupt then 1 else 0
  let nm8 : Nat := if m8 then 0 else 1
  [ (srcAddr >>> 8) &&& 0xFF,
    srcAddr &&& 0xFF,
    (dstAddr >>> 8) &&& 0xFF,
    dstAddr &&& 0xFF,
    ((vlen &&& 0x07) <<< 5) ||| ((tlen >>> 8) &&& 0x1F),
    tlen &&& 0xFF,
    (nword <<< 7) ||| (transferMode <<< 5) ||| (trigger &&& 0x1F),
    ((srcInc &&& 0x03) <<< 6) ||| ((dstInc &&& 0x03) <<< 4) ||| (nirq <<< 3) |||
      (nm8 <<< 2) ||| (priority &&& 0x03) ]

/-- `configDMAChannel` (line 490): the XDATA address the descriptor is written
to, `memBase + index*8`. -/
def configDMAChannelAddr (index memBase : Nat) : Nat := memBase + index * 8

/-- `writeCODE` (line 670): the FADDRH byte `(fPage << 1) | ((fOffset << 8) & 0x01)`. -/
def flashAddrHigh (fPage fOffset : Nat) : Nat := (fPage <<< 1) ||| ((fOffset <<< 8) &&& 0x01)

/-- `writeCODE` (line 671): the FADDRL byte `fOffset & 0xFF`. -/
def flashAddrLow (fOffset : Nat) : Nat := fOffset &&& 0xFF

/-- `writeCODE` (lines 664-674): the `(FADDRL, FADDRH)` pair computed for a
chunk starting at flash byte address `fAddr`, with `fPage = fAddr / pageSize`
and `fOffset = fAddr % pageSize`.  The pair is written by
`writeXDATA(0x6271, [cLow, cHigh])`, i.e. FADDRL to 0x6271 and FADDRH to
0x6272. -/
def flashAddrBytes (fAddr flashPageSize : Nat) : Nat × Nat :=
  let fPage := fAddr / flashPageSize
  let fOffset := fAddr % flashPageSize
  (flashAddrLow fOffset, flashAddrHigh fPage fOffset)

/-- Decoder written from the spec's words (it is compared with the encoder
taken from the source): inverting `FADDRH = (page<<1) | ((offset<<8)&0x01)`
and `FADDRL = offset & 0xFF` recovers the page from FADDRH bits 7..1 and the
offset from FADDRH bit 0 (offset bit 8) together with FADDRL. -/
def flashAddrDecode (faddrl faddrh : Nat) : Nat × Nat :=
  (faddrh >>> 1, ((faddrh &&& 1) <<< 8) ||| faddrl)

/-- `writeCODE` chunk loop (lines 649-662 and 696): the sequence of
`(iLen, data[iOfs:iLen])` pairs produced while `iOfs < len(data)`, where
`iLen = min(len(data) - iOfs, blockSize)` is the length programmed into the
DMA descriptors for a short final chunk and `data[iOfs:iLen]` is the payload
the source passes to `brustWrite`.  The fuel argument bounds the number of
iterations; `data.length` is enough fuel whenever `blockSize ≥ 1` because each
iteration advances `iOfs` by `iLen ≥ 1`. -/
def writeCODEgo (data : List Int) (blockSize : Nat) : Nat → Nat → List (Nat × List Int)
  | 0, _ => []
  | fuel + 1, iOfs =>
    if iOfs < data.length then
      let iLen := min (data.length - iOfs) blockSize
      (iLen, pySlice data iOfs iLen) :: writeCODEgo data blockSize fuel (iOfs + iLen)
    else []

/-- The chunk trace of `writeCODE data blockSize` starting at `iOfs = 0`. -/
def writeCODEchunks (data : List Int) (blockSize : Nat) : List (Nat × List Int) :=
  writeCODEgo data blockSize data.length 0

/-! ### Theorems -/

/-- Claim C1 (code bug): `writeCODE` is supposed to stream the bytes of `data`
to the proxy in order, chunked into pieces of at most `blockSize`, so for
`len(data) = blockSize + 1` the two chunks should carry `data[0..blockSize)`
and `[data[blockSize]]`.  The source instead slices `data[iOfs:iLen]`
(line 662), so at `data = [1,2,3]`, `blockSize = 2` the first iteration
programs descriptor length 2 and streams `[1, 2]`, but the second iteration
programs descriptor length 1 and streams the empty slice `data[2:1] = []`:
the final byte is never sent and the concatenation of the streamed chunks is
not `data`. -/
theorem writeCODE_drops_final_chunk_bytes :
    writeCODEchunks [1, 2, 3] 2 = [(2, [1, 2]), (1, [])] ∧
      ((writeCODEchunks [1, 2, 3] 2).map Prod.snd).flatten = [1, 2] := by
  decide

/-- Claim C2 counterexample: the claim asserts that for chunk start address
0x17FF with `flashPageSize = 0x800` the source writes `FADDRH = 0x05`; the
source's `(fOffset << 8) & 0x01` term is always zero, so the pair actually
written is `(FADDRL, FADDRH) = (0xFF, 0x04)`, not `(0xFF, 0x05)`. -/
theorem flashAddr_cex_0x17FF : flashAddrBytes 0x17FF 0x800 ≠ (0xFF, 0x05) := by
  decide

/-- Claim C2 (amended): with `flashPageSize = 0x800`, a chunk starting at
0x1000 yields `FADDRL = 0x00`, `FADDRH = 0x04` and a chunk starting at 0x17FF
yields `FADDRL = 0xFF`, `FADDRH = 0x04` (the `(fOffset << 8) & 0x01`
contribution to FADDRH is identically zero); `writeXDATA(0x6271, [cLow,
cHigh])` stores FADDRL at XDATA 0x6271 and FADDRH at XDATA 0x6272. -/
theorem flashAddr_encoding_values :
    flashAddrBytes 0x1000 0x800 = (0x00, 0x04) ∧
      flashAddrBytes 0x17FF 0x800 = (0xFF, 0x04) ∧
      writeXDATAPairs 0x6271 [(flashAddrBytes 0x17FF 0x800).1, (flashAddrBytes 0x17FF 0x800).2] =
        [(0x6271, 0xFF), (0x6272, 0x04)] := by
  decide

/-- Claim C3 counterexample: on the claimed domain `page < 128`,
`offset < page_size` (default page size 0x800) the FADDR encoding is not
injective and does not round-trip: `(0, 256)` and `(0, 0)` encode to the same
byte pair, and decoding the encoding of `(0, 256)` yields `(0, 0)`. -/
theorem flashAddr_roundtrip_cex :
    (256 : Nat) < 0x800 ∧
      (flashAddrLow 256, flashAddrHigh 0 256) = (flashAddrLow 0, flashAddrHigh 0 0) ∧
      flashAddrDecode (flashAddrLow 256) (flashAddrHigh 0 256) ≠ (0, 256) := by
  decide

/-- Claim C3 (amended): on the domain `page < 128`, `offset < 256` the FADDR
encoding `FADDRL = offset & 0xFF`, `FADDRH = (page<<1) | ((offset<<8)&0x01)`
round-trips through the decoder that inverts it, and is therefore injective
on that domain; for `256 ≤ offset < page_size` the encoding loses the high
offset bits (the `(offset<<8)&0x01` term is identically zero). -/
theorem flashAddr_roundtrip_of_offset_lt_256 (page offset page2 offset2 : Nat)
    (_hp : page < 128) (ho : offset < 256) (_hp2 : page2 < 128) (ho2 : offset2 < 256) :
    flashAddrDecode (flashAddrLow offset) (flashAddrHigh page offset) = (page, offset) ∧
      ((flashAddrLow offset, flashAddrHigh page offset) =
          (flashAddrLow offset2, flashAddrHigh page2 offset2) → (page, offset) = (page2, offset2)) := by
  have key : ∀ p o : Nat, o < 256 →
      flashAddrDecode (flashAddrLow o) (flashAddrHigh p o) = (p, o) := by
    intro p o ho
    have h1 : (o <<< 8) &&& 0x01 = 0 := by
      rw [Nat.and_one_is_mod, Nat.shiftLeft_eq]
      omega
    have h2 : flashAddrHigh p o = p <<< 1 := by
      rw [flashAddrHigh, h1, Nat.or_zero]
    have h3 : flashAddrLow o = o := by
      have : o &&& 0xFF = o % 256 := Nat.and_pow_two_sub_one_eq_mod o 8
      rw [flashAddrLow, this, Nat.mod_eq_of_lt ho]
    rw [flashAddrDecode, h2, h3, Nat.shiftLeft_eq, Nat.shiftRight_eq_div_pow,
      Nat.and_one_is_mod]
    have h4 : p * 2 ^ 1 / 2 ^ 1 = p := Nat.mul_div_cancel p (by norm_num)
    have h5 : p * 2 ^ 1 % 2 = 0 := by omega
    rw [h4, h5, Nat.zero_shiftLeft, Nat.zero_or]
  refine ⟨key page offset ho, fun h => ?_⟩
  have e1 := key page offset ho
  have e2 := key page2 offset2 ho2
  rw [show flashAddrLow offset = flashAddrLow offset2 from congrArg Prod.fst h,
    show flashAddrHigh page offset = flashAddrHigh page2 offset2 from congrArg Prod.snd h,
    e2] at e1
  exact e1.symm

/-- Witness for `flashAddr_roundtrip_of_offset_lt_256` at
`page = 3, offset = 5, page2 = 3, offset2 = 5`. -/
theorem flashAddr_roundtrip_witness :
    flashAddrDecode (flashAddrLow 5) (flashAddrHigh 3 5) = (3, 5) :=
  (flashAddr_roundtrip_of_offset_lt_256 3 5 3 5 (by decide) (by decide) (by decide)
    (by decide)).1

/-- Claim C4 (code bug): `getSerial` is supposed to format the 6 bytes read
from XDATA 0x780E in reversed order, indices 5 down to and including 0, as a
12-character lowercase hex string.  The source iterates `range(5,0,-1)`,
which stops before index 0, so on bytes `[1,2,3,4,5,6]` it produces the
10-character string `"0605040302"`: byte 0 never appears. -/
theorem getSerial_omits_byte0 :
    getSerial [1, 2, 3, 4, 5, 6] = "0605040302" ∧
      (getSerial [1, 2, 3, 4, 5, 6]).length = 10 := by
  decide

/-- Claim C5 counterexample: the claim asserts that a 0-byte payload is
rejected or short-circuited without dispatching a burst transfer; the source
only checks `length > 2048`, so for the empty payload the 4-byte command
frame `[CMD_BRUSTWR, 0, 0, 0]` is dispatched on the wire with length 0. -/
theorem brustWrite_zero_len_dispatches : brustWrite [] = some [0x0A, 0, 0, 0] := by
  decide

/-- Claim C5 (amended): `brustWrite` enforces only the upper bound
`len ≤ 2048`: an accepted payload produces the 4-byte header whose two length
bytes encode `len` big-endian, followed by exactly `len` streamed bytes, so a
2048-byte payload streams exactly 2048 bytes; a payload of 2049 or more bytes
fails locally with nothing sent on the wire; a 0-byte payload is not rejected
— the command frame is dispatched with length 0 and no data bytes follow. -/
theorem brustWrite_length_bounds (data : List Int) :
    (data.length ≤ 2048 →
      ∃ out, brustWrite data = some out ∧
        out.take 4 = [0x0A, data.length / 256, data.length % 256, 0] ∧
        (out.drop 4).length = data.length) ∧
      (2048 < data.length → brustWrite data = none) := by
  constructor
  · intro h
    have hc : ¬ (data.length > 2048) := by omega
    refine ⟨[0x0A, (data.length >>> 8) &&& 0xFF, data.length &&& 0xFF, 0] ++ data.map pyByte,
      ?_, ?_, ?_⟩
    · rw [brustWrite, if_neg hc]
    · have h1 : data.length >>> 8 = data.length / 256 := Nat.shiftRight_eq_div_pow _ 8
      have h2 : data.length / 256 < 256 := by omega
      have h3 : (data.length / 256) &&& 0xFF = data.length / 256 := by
        have := Nat.and_pow_two_sub_one_eq_mod (data.length / 256) 8
        rw [this, Nat.mod_eq_of_lt h2]
      have h4 : data.length &&& 0xFF = data.length % 256 :=
        Nat.and_pow_two_sub_one_eq_mod data.length 8
      simp [h1, h3, h4]
    · simp
  · intro h
    have hc : data.length > 2048 := by omega
    rw [brustWrite, if_pos hc]

/-- Witness for `brustWrite_length_bounds` at a 2048-byte payload (accepted,
2048 bytes streamed after the header) and a 2049-byte payload (rejected
locally). -/
theorem brustWrite_length_bounds_witness :
    (∃ out, brustWrite (List.replicate 2048 (0 : Int)) = some out ∧
        out.take 4 = [0x0A, 8, 0, 0] ∧ (out.drop 4).length = 2048) ∧
      brustWrite (List.replicate 2049 (0 : Int)) = none := by
  have hlen : (List.replicate 2048 (0 : Int)).length = 2048 := by rw [List.length_replicate]
  have hlen2 : (List.replicate 2049 (0 : Int)).length = 2049 := by rw [List.length_replicate]
  constructor
  · obtain ⟨out, h1, h2, h3⟩ :=
      (brustWrite_length_bounds (List.replicate 2048 (0 : Int))).1 (by omega)
    refine ⟨out, h1, ?_, ?_⟩
    · rw [h2, hlen]
    · rw [h3, hlen]
  · exact (brustWrite_length_bounds (List.replicate 2049 (0 : Int))).2 (by omega)

/-- Claim C6 counterexample: the claim asserts that for an acknowledgment byte
other than 0x01 and 0x02 the transport fails without consuming an error-code
byte; the source's `sendFrame` reads a further byte for every non-OK
acknowledgment, so on the response stream `[0x03, 0x55]` it consumes two bytes
and fails carrying code 0x55. -/
theorem sendFrameAck_other_ack_consumes_code :
    sendFrameAck [0x03, 0x55] = some (.err 0x55, 2) := by
  decide

/-- Claim C6 (amended): after the 4-byte command frame, the transport succeeds
exactly when the acknowledgment byte is 0x01 (consuming only that byte); for
ANY other acknowledgment byte — 0x02 or otherwise — it reads exactly one
further byte and fails with a `TransportError` carrying that byte as the
proxy error code. -/
theorem sendFrameAck_spec (s c : Nat) (rest : List Nat) :
    (sendFrameAck (s :: c :: rest) = some (.ok, 1) ↔ s = 1) ∧
      (s ≠ 1 → sendFrameAck (s :: c :: rest) = some (.err c, 2)) := by
  by_cases h : s = 1 <;> simp [sendFrameAck, h]

/-- Witness for `sendFrameAck_spec`: ack 0x01 succeeds consuming one byte;
ack 0x02 fails consuming the error code 0x07; ack 0x03 likewise. -/
theorem sendFrameAck_spec_witness :
    sendFrameAck [0x01, 0x07] = some (.ok, 1) ∧
      sendFrameAck [0x02, 0x07] = some (.err 0x07, 2) ∧
      sendFrameAck [0x03, 0x09] = some (.err 0x09, 2) :=
  ⟨(sendFrameAck_spec 0x01 0x07 []).1.mpr rfl,
    (sendFrameAck_spec 0x02 0x07 []).2 (by decide),
    (sendFrameAck_spec 0x03 0x09 []).2 (by decide)⟩

/-- Claim C7: `configDMAChannel(index=1, src=0x6260, dst=0x0000, trigger=0x1F,
tlen=2048, srcInc=0, dstInc=1, priority=1, interrupt=false, m8=true, vlen=0,
word=false, transferMode=0)` packs exactly the descriptor bytes
`62 60 00 00 08 00 1F 11` and writes them to XDATA `0x1000 + 1*8 = 0x1008`;
and for all inputs, bit 3 (IRQMASK) of descriptor byte 7 equals the requested
`interrupt` flag while bit 2 (the encoded M8 field) equals the negation of the
`m8` argument. -/
theorem configDMAChannel_spec :
    (configDMAChannelConfig 0x6260 0x0000 0x1F 0 2048 false 0 0 1 false true 1 =
        [0x62, 0x60, 0x00, 0x00, 0x08, 0x00, 0x1F, 0x11] ∧
      configDMAChannelAddr 1 0x1000 = 0x1008) ∧
      ∀ (srcAddr dstAddr trigger vlen tlen : Nat) (word : Bool)
        (transferMode srcInc dstInc : Nat) (interrupt m8 : Bool) (priority : Nat),
        ((configDMAChannelConfig srcAddr dstAddr trigger vlen tlen word transferMode srcInc
            dstInc interrupt m8 priority).getD 7 0).testBit 3 = interrupt ∧
          ((configDMAChannelConfig srcAddr dstAddr trigger vlen tlen word transferMode srcInc
              dstInc interrupt m8 priority).getD 7 0).testBit 2 = !m8 := by
  refine ⟨by decide, ?_⟩
  intro srcAddr dstAddr trigger vlen tlen word transferMode srcInc dstInc interrupt m8 priority
  have hlt : priority &&& 0x03 < 2 ^ 2 := Nat.and_lt_two_pow priority (by norm_num)
  have hp3 : (priority &&& 0x03).testBit 3 = false := Nat.testBit_lt_two_pow (by omega)
  have hp2 : (priority &&& 0x03).testBit 2 = false := Nat.testBit_lt_two_pow (by omega)
  cases interrupt <;> cases m8 <;>
      simp [configDMAChannelConfig, List.getD, hp3, hp2] <;> decide

set_option maxRecDepth 8192 in
/-- All pairs of a byte read from SFR 0xC7 and a masked bank value: the value
written back keeps the upper five bits and installs the masked bank in the low
three.  Checked by exhaustive evaluation. -/
theorem selectXDATABank_aux :
    ∀ v < 256, ∀ c < 8,
      ((v &&& 0xF8) ||| c) >>> 3 = v >>> 3 ∧ ((v &&& 0xF8) ||| c) &&& 7 = c := by
  decide

/-- Claim C8: for every bank value and every prior byte value `v` of SFR 0xC7,
`selectXDATABank` writes back a value whose upper five bits (`>>> 3`) equal the
upper five bits of `v` and whose low three bits (`&&& 7`) equal `bank & 0x07`:
the read-modify-write preserves all bits other than the low three. -/
theorem selectXDATABank_spec (bank v : Nat) (h : v < 256) :
    selectXDATABankValue bank v >>> 3 = v >>> 3 ∧
      selectXDATABankValue bank v &&& 7 = bank &&& 0x07 := by
  have hb : bank &&& 0x07 < 8 := by
    have := Nat.and_lt_two_pow bank (show (0x07 : Nat) < 2 ^ 3 by norm_num)
    omega
  exact selectXDATABank_aux v h (bank &&& 0x07) hb

/-- Witness for `selectXDATABank_spec` at `bank = 5`, prior value `0xAB`. -/
theorem selectXDATABank_spec_witness :
    selectXDATABankValue 5 0xAB >>> 3 = 0xAB >>> 3 ∧
      selectXDATABankValue 5 0xAB &&& 7 = 5 &&& 0x07 :=
  selectXDATABank_spec 5 0xAB (by decide)

/-- Claim C9: for every channel index and prior register value,
`armDMAChannel` writes back DMAARM (SFR 0xD6) with bit `2^index` set and every
other bit as read, and `clearDMAIRQ` writes back DMAIRQ (SFR 0xD1) with bit
`2^index` cleared and every other bit as read: arming or clearing one channel
never disturbs another channel's arm or pending-IRQ bit. -/
theorem dmaChannel_frame_effect (index a j : Nat) (hj : j ≠ index) :
    (armDMAChannelValue index a).testBit index = true ∧
      (armDMAChannelValue index a).testBit j = a.testBit j ∧
      (clearDMAIRQValue index a).testBit index = false ∧
      (clearDMAIRQValue index a).testBit j = a.testBit j := by
  have hpow : (2 ^ index).testBit index = true := Nat.testBit_two_pow_self
  have hpow' : (2 ^ index).testBit j = false := Nat.testBit_two_pow_of_ne (Ne.symm hj)
  refine ⟨?_, ?_, ?_, ?_⟩
  · simp [armDMAChannelValue, hpow]
  · simp [armDMAChannelValue, hpow']
  · show (Nat.ldiff a (2 ^ index)).testBit index = false
    rw [Nat.testBit_ldiff, hpow]
    simp
  · show (Nat.ldiff a (2 ^ index)).testBit j = a.testBit j
    rw [Nat.testBit_ldiff, hpow']
    simp

/-- Witness for `dmaChannel_frame_effect` at channel 1 with prior values 0xF0
(arm) and 0xFF (clear), observing bit 0 as the untouched neighbour. -/
theorem dmaChannel_frame_effect_witness :
    (armDMAChannelValue 1 0xF0).testBit 1 = true ∧
      (armDMAChannelValue 1 0xF0).testBit 0 = (0xF0 : Nat).testBit 0 ∧
      (clearDMAIRQValue 1 0xFF).testBit 1 = false ∧
      (clearDMAIRQValue 1 0xFF).testBit 0 = (0xFF : Nat).testBit 0 := by
  have h1 := dmaChannel_frame_effect 1 0xF0 0 (by decide)
  have h2 := dmaChannel_frame_effect 1 0xFF 0 (by decide)
  exact ⟨h1.1, h1.2.1, h2.2.2.1, h2.2.2.2⟩

/-- Claim C10: every accepted payload (length ≤ 2048) is streamed with each
wire byte equal to the corresponding input element reduced modulo 256
(Python `b & 0xFF`), in order after the 4-byte header; elements outside 0..255
are truncated to their low 8 bits, never rejected or transmitted wide. -/
theorem brustWrite_byte_truncation (data : List Int) (h : data.length ≤ 2048) :
    ∃ out, brustWrite data = some out ∧
      out.drop 4 = data.map (fun b => (b % 256).toNat) ∧
      ∀ x ∈ out.drop 4, x < 256 := by
  have hc : ¬ (data.length > 2048) := by omega
  refine ⟨[0x0A, (data.length >>> 8) &&& 0xFF, data.length &&& 0xFF, 0] ++ data.map pyByte,
    by rw [brustWrite, if_neg hc], by simp [pyByte], ?_⟩
  intro x hx
  simp only [List.drop_succ_cons, List.drop_zero, List.cons_append, List.nil_append,
    List.mem_map] at hx
  obtain ⟨b, -, rfl⟩ := hx
  have h1 : 0 ≤ b % 256 := Int.emod_nonneg b (by norm_num)
  have h2 : b % 256 < 256 := Int.emod_lt_of_pos b (by norm_num)
  rw [pyByte]
  omega

/-- Witness for `brustWrite_byte_truncation` at the payload `[300, -1, 5]`:
accepted, streamed as `[44, 255, 5]` (`300 & 0xFF = 44`, `-1 & 0xFF = 255`). -/
theorem brustWrite_byte_truncation_witness :
    ∃ out, brustWrite [(300 : Int), -1, 5] = some out ∧ out.drop 4 = [44, 255, 5] := by
  obtain ⟨out, h1, h2, -⟩ := brustWrite_byte_truncation [(300 : Int), -1, 5] (by decide)
  refine ⟨out, h1, ?_⟩
  rw [h2]
  decide

end CCLib
